import Mathlib

/-!
Verification of the single-sided liquidity pool (`LpPool` in `src/main.rs`).

Shallow embedding conventions:
* The `u64` fields of the Rust `LpPool` struct become `ℕ`. All quantities are
  fixed-point integers at `SCALE = 1_000_000`, exactly as in the source.
* The intermediate `f64` computations of the source are embedded as exact
  rational arithmetic (`ℚ`): each Rust expression is transcribed term by term.
* A Rust `as u64` cast of a non-negative float is truncation (`Int.floor` then
  `Int.toNat`; negative values clamp to `0`, as the Rust cast does).
* Rust's `f64::round` rounds half away from zero; `rustRound` below models it.
* `thread_rng().gen_range(min_fee.to_f64()..=max_fee.to_f64())` is modelled by
  passing the sampled fee rate as an explicit argument to `swap`, constrained
  by `feeInRange` to lie in the closed interval the source samples from.
* Each method taking `&mut self` and returning `Result<T, Error>` becomes a
  function `LpPool → … → Except Error T × LpPool`; an early `return Err(..)`
  yields the unchanged pool, mirroring the untouched `&mut self`.
-/

namespace LiquidityPool

/-- The fixed-point scale factor, `const SCALE: u64 = 1_000_000`. -/
def SCALE : ℕ := 1000000

/-- The pool state, mirroring `struct LpPool` field by field (the newtype
wrappers `Price`, `TokenAmount`, `StakedTokenAmount`, `LpTokenAmount`,
`Percentage` are all transparent `u64`s). -/
structure LpPool where
  price : ℕ
  token_amount : ℕ
  st_token_amount : ℕ
  lp_token_amount : ℕ
  liquidity_target : ℕ
  min_fee : ℕ
  max_fee : ℕ
deriving DecidableEq, Repr

/-- The error enum of the source. -/
inductive Error where
  | InsufficientLiquidity
  | InvalidInput
deriving DecidableEq, Repr

instance {ε α : Type} [DecidableEq ε] [DecidableEq α] : DecidableEq (Except ε α) := fun x y =>
  match x, y with
  | .error a, .error b =>
      if h : a = b then isTrue (by rw [h]) else isFalse (fun hc => by cases hc; exact h rfl)
  | .ok a, .ok b =>
      if h : a = b then isTrue (by rw [h]) else isFalse (fun hc => by cases hc; exact h rfl)
  | .error _, .ok _ => isFalse (fun hc => by cases hc)
  | .ok _, .error _ => isFalse (fun hc => by cases hc)

/-- `Percentage::to_f64`: `self.0 as f64 / SCALE as f64`. -/
def toF64 (v : ℕ) : ℚ := (v : ℚ) / (SCALE : ℚ)

/-- Rust's `f64::round`: round half away from zero. -/
def rustRound (q : ℚ) : ℤ := if 0 ≤ q then ⌊q + 1/2⌋ else -⌊-q + 1/2⌋

/-- `LpPool::init`: always `Ok`, zero reserves and LP supply, parameters stored
unchanged (the source performs no validation at all). -/
def init (price min_fee max_fee liquidity_target : ℕ) : Except Error LpPool :=
  .ok { price := price
        token_amount := 0
        st_token_amount := 0
        lp_token_amount := 0
        liquidity_target := liquidity_target
        min_fee := min_fee
        max_fee := max_fee }

/-- The `lp_tokens_to_mint_f64` computation of `LpPool::add_liquidity`:
proportional mint `amount * lp_supply / base_reserve / SCALE` when
`lp_token_amount > 0`, else the bootstrap `amount / SCALE`. -/
def mintAmount (p : LpPool) (token_amount : ℕ) : ℚ :=
  if p.lp_token_amount > 0 then
    ((token_amount : ℚ) * (p.lp_token_amount : ℚ) / (p.token_amount : ℚ)) / (SCALE : ℚ)
  else
    (token_amount : ℚ) / (SCALE : ℚ)

/-- `LpPool::add_liquidity`. Rejects `token_amount <= 0` (for `u64`, `= 0`)
with `InvalidInput`; otherwise adds the deposit to the base reserve and mints
`(lp_tokens_to_mint_f64 * SCALE) as u64` LP tokens, returning the natural-scale
minted amount. -/
def add_liquidity (p : LpPool) (token_amount : ℕ) : Except Error ℚ × LpPool :=
  if token_amount ≤ 0 then (.error .InvalidInput, p)
  else
    (.ok (mintAmount p token_amount),
     { p with
       token_amount := p.token_amount + token_amount
       lp_token_amount :=
         p.lp_token_amount + ⌊mintAmount p token_amount * (SCALE : ℚ)⌋.toNat })

/-- The `lp_tokens_share` fraction of `LpPool::remove_liquidity`. -/
def lpShare (p : LpPool) (lp_token_amount : ℕ) : ℚ :=
  (lp_token_amount : ℚ) / (p.lp_token_amount : ℚ)

/-- `token_amount_to_return_f64` of `LpPool::remove_liquidity`. -/
def baseReturn (p : LpPool) (lp_token_amount : ℕ) : ℚ :=
  (p.token_amount : ℚ) * lpShare p lp_token_amount / (SCALE : ℚ)

/-- `staked_token_amount_to_return_f64` of `LpPool::remove_liquidity`. -/
def stakedReturn (p : LpPool) (lp_token_amount : ℕ) : ℚ :=
  (p.st_token_amount : ℚ) * lpShare p lp_token_amount / (SCALE : ℚ)

/-- `LpPool::remove_liquidity`. Rejects `lp_token_amount <= 0` or
`> self.lp_token_amount` with `InsufficientLiquidity`; otherwise deducts the
scaled-up returns from the two reserves and burns the LP amount, returning both
natural-scale amounts. -/
def remove_liquidity (p : LpPool) (lp_token_amount : ℕ) : Except Error (ℚ × ℚ) × LpPool :=
  if lp_token_amount ≤ 0 ∨ lp_token_amount > p.lp_token_amount then
    (.error .InsufficientLiquidity, p)
  else
    (.ok (baseReturn p lp_token_amount, stakedReturn p lp_token_amount),
     { p with
       token_amount :=
         p.token_amount - ⌊baseReturn p lp_token_amount * (SCALE : ℚ)⌋.toNat
       st_token_amount :=
         p.st_token_amount - ⌊stakedReturn p lp_token_amount * (SCALE : ℚ)⌋.toNat
       lp_token_amount := p.lp_token_amount - lp_token_amount })

/-- `tokens_to_receive_f64` of `LpPool::swap`:
`(staked / SCALE) * (price / SCALE) * (1 - fee_rate / SCALE)`. Note the source
divides the already-`to_f64`ed fee rate by `SCALE` a second time. -/
def tokensToReceive (p : LpPool) (staked_token_amount : ℕ) (fee_rate : ℚ) : ℚ :=
  ((staked_token_amount : ℚ) / (SCALE : ℚ)) * ((p.price : ℚ) / (SCALE : ℚ)) *
    (1 - fee_rate / (SCALE : ℚ))

/-- `tokens_to_receive_scaled` of `LpPool::swap`:
`(tokens_to_receive_f64 * SCALE).round() as u64`. -/
def tokensToReceiveScaled (p : LpPool) (staked_token_amount : ℕ) (fee_rate : ℚ) : ℕ :=
  (rustRound (tokensToReceive p staked_token_amount fee_rate * (SCALE : ℚ))).toNat

/-- `LpPool::swap` with the sampled `fee_rate` passed explicitly. Rejects
`staked_token_amount <= 0` with `InvalidInput`; fails with
`InsufficientLiquidity` when the scaled payout exceeds the base reserve;
otherwise pays out from the base reserve and accrues the staked deposit. -/
def swap (p : LpPool) (staked_token_amount : ℕ) (fee_rate : ℚ) : Except Error ℚ × LpPool :=
  if staked_token_amount ≤ 0 then (.error .InvalidInput, p)
  else if tokensToReceiveScaled p staked_token_amount fee_rate > p.token_amount then
    (.error .InsufficientLiquidity, p)
  else
    (.ok (tokensToReceive p staked_token_amount fee_rate),
     { p with
       token_amount := p.token_amount - tokensToReceiveScaled p staked_token_amount fee_rate
       st_token_amount := p.st_token_amount + staked_token_amount })

/-- The interval the source samples the fee rate from:
`gen_range(self.min_fee.to_f64()..=self.max_fee.to_f64())`. -/
def feeInRange (p : LpPool) (fee_rate : ℚ) : Prop :=
  toF64 p.min_fee ≤ fee_rate ∧ fee_rate ≤ toF64 p.max_fee

/-- One successful state transition of the pool: a successful `add_liquidity`,
`remove_liquidity`, or `swap` (the latter with a fee rate the sampler could
have produced). -/
inductive Step : LpPool → LpPool → Prop where
  | addStep : ∀ (p : LpPool) (a : ℕ) (m : ℚ) (p' : LpPool),
      add_liquidity p a = (.ok m, p') → Step p p'
  | removeStep : ∀ (p : LpPool) (k : ℕ) (r : ℚ × ℚ) (p' : LpPool),
      remove_liquidity p k = (.ok r, p') → Step p p'
  | swapStep : ∀ (p : LpPool) (s : ℕ) (fee : ℚ) (v : ℚ) (p' : LpPool),
      feeInRange p fee → swap p s fee = (.ok v, p') → Step p p'

/-- A pool state reachable from some `init` by successful operations. -/
def Reachable (p : LpPool) : Prop :=
  ∃ (price min_fee max_fee liquidity_target : ℕ) (p0 : LpPool),
    init price min_fee max_fee liquidity_target = .ok p0 ∧
    Relation.ReflTransGen Step p0 p

/-- The pool of `main`: `init(Price::from(1.5), 0.9 * SCALE, 9.0 * SCALE,
TokenAmount::from(90.0))`. -/
def mainPool0 : LpPool :=
  { price := 1500000, token_amount := 0, st_token_amount := 0, lp_token_amount := 0,
    liquidity_target := 90000000, min_fee := 900000, max_fee := 9000000 }

/-- The pool of `main` after `add_liquidity(TokenAmount::from(100.0))`. -/
def mainPool1 : LpPool :=
  { price := 1500000, token_amount := 100000000, st_token_amount := 0,
    lp_token_amount := 100000000,
    liquidity_target := 90000000, min_fee := 900000, max_fee := 9000000 }

example : init 1500000 900000 9000000 90000000 = .ok mainPool0 := rfl
example : add_liquidity mainPool0 100000000 = (.ok 100, mainPool1) := by
  norm_num [add_liquidity, mintAmount, mainPool0, mainPool1, SCALE]
  rfl

/-- Inversion for a successful `add_liquidity`. -/
lemma add_ok_iff (p : LpPool) (a : ℕ) (m : ℚ) (p' : LpPool) :
    add_liquidity p a = (.ok m, p') ↔
      0 < a ∧ m = mintAmount p a ∧
      p' = { p with
             token_amount := p.token_amount + a
             lp_token_amount := p.lp_token_amount + ⌊mintAmount p a * (SCALE : ℚ)⌋.toNat } := by
  unfold add_liquidity
  rcases Nat.eq_zero_or_pos a with h | h
  · subst h; simp
  · rw [if_neg (by omega)]
    simp only [Prod.mk.injEq, Except.ok.injEq]
    constructor
    · rintro ⟨h1, h2⟩; exact ⟨h, h1.symm, h2.symm⟩
    · rintro ⟨-, h1, h2⟩; exact ⟨h1.symm, h2.symm⟩

/-- Inversion for a successful `remove_liquidity`. -/
lemma remove_ok_iff (p : LpPool) (k : ℕ) (r : ℚ × ℚ) (p' : LpPool) :
    remove_liquidity p k = (.ok r, p') ↔
      0 < k ∧ k ≤ p.lp_token_amount ∧ r = (baseReturn p k, stakedReturn p k) ∧
      p' = { p with
             token_amount := p.token_amount - ⌊baseReturn p k * (SCALE : ℚ)⌋.toNat
             st_token_amount := p.st_token_amount - ⌊stakedReturn p k * (SCALE : ℚ)⌋.toNat
             lp_token_amount := p.lp_token_amount - k } := by
  unfold remove_liquidity
  by_cases h : k ≤ 0 ∨ k > p.lp_token_amount
  · rw [if_pos h]
    simp only [Prod.mk.injEq]
    constructor
    · rintro ⟨h1, -⟩; cases h1
    · rintro ⟨h1, h2, -⟩; omega
  · rw [if_neg h]
    simp only [Prod.mk.injEq, Except.ok.injEq]
    constructor
    · rintro ⟨h1, h2⟩; exact ⟨by omega, by omega, h1.symm, h2.symm⟩
    · rintro ⟨-, -, h1, h2⟩; exact ⟨h1.symm, h2.symm⟩

/-- Inversion for a successful `swap`. -/
lemma swap_ok_iff (p : LpPool) (s : ℕ) (fee : ℚ) (v : ℚ) (p' : LpPool) :
    swap p s fee = (.ok v, p') ↔
      0 < s ∧ tokensToReceiveScaled p s fee ≤ p.token_amount ∧
      v = tokensToReceive p s fee ∧
      p' = { p with
             token_amount := p.token_amount - tokensToReceiveScaled p s fee
             st_token_amount := p.st_token_amount + s } := by
  unfold swap
  rcases Nat.eq_zero_or_pos s with h | h
  · subst h; simp
  · rw [if_neg (by omega)]
    by_cases h2 : tokensToReceiveScaled p s fee > p.token_amount
    · rw [if_pos h2]
      simp only [Prod.mk.injEq]
      constructor
      · rintro ⟨h1, -⟩; cases h1
      · rintro ⟨-, h1, -⟩; omega
    · rw [if_neg h2]
      simp only [Prod.mk.injEq, Except.ok.injEq]
      constructor
      · rintro ⟨h1, h3⟩; exact ⟨h, by omega, h1.symm, h3.symm⟩
      · rintro ⟨-, -, h1, h3⟩; exact ⟨h1.symm, h3.symm⟩

/-- C7: for every combination of price, fee bounds (even inverted ones) and
liquidity target, `init` succeeds and yields a pool with zero base reserve,
zero staked reserve, zero LP supply, and the supplied parameters stored
unchanged. -/
theorem init_always_ok_stores_params (price min_fee max_fee liquidity_target : ℕ) :
    init price min_fee max_fee liquidity_target =
      .ok { price := price, token_amount := 0, st_token_amount := 0, lp_token_amount := 0,
            liquidity_target := liquidity_target, min_fee := min_fee, max_fee := max_fee } :=
  rfl

/-- C9: `liquidity_target` does not interfere with any operation: two pools
identical except for the liquidity target give the same result payload (success
value or error) for `add_liquidity`, `remove_liquidity`, and `swap` (with the
same sampled fee), and identical updates to all other state fields. -/
theorem liquidity_target_noninterference (p : LpPool) (t a k s : ℕ) (fee : ℚ) :
    (add_liquidity { p with liquidity_target := t } a).1 = (add_liquidity p a).1 ∧
    (add_liquidity { p with liquidity_target := t } a).2 =
      { (add_liquidity p a).2 with liquidity_target := t } ∧
    (remove_liquidity { p with liquidity_target := t } k).1 = (remove_liquidity p k).1 ∧
    (remove_liquidity { p with liquidity_target := t } k).2 =
      { (remove_liquidity p k).2 with liquidity_target := t } ∧
    (swap { p with liquidity_target := t } s fee).1 = (swap p s fee).1 ∧
    (swap { p with liquidity_target := t } s fee).2 =
      { (swap p s fee).2 with liquidity_target := t } := by
  refine ⟨?_, ?_, ?_, ?_, ?_, ?_⟩ <;>
    simp only [add_liquidity, remove_liquidity, swap, mintAmount, baseReturn, stakedReturn,
      lpShare, tokensToReceive, tokensToReceiveScaled] <;>
    split_ifs <;> rfl

/-- C5: every operation is atomic with respect to errors. `add_liquidity` with
zero amount and `swap` with zero staked amount fail with `InvalidInput`;
`remove_liquidity` with a zero amount or one exceeding the LP supply fails with
`InsufficientLiquidity`; a swap whose scaled payout exceeds the base reserve
fails with `InsufficientLiquidity`; and whenever any operation returns an
error, the returned pool state equals the input pool state in every field. -/
theorem operations_atomic_on_error :
    (∀ (p : LpPool) (a : ℕ), a = 0 → add_liquidity p a = (.error .InvalidInput, p)) ∧
    (∀ (p : LpPool) (a : ℕ) (e : Error) (p' : LpPool),
      add_liquidity p a = (.error e, p') → p' = p ∧ e = .InvalidInput ∧ a = 0) ∧
    (∀ (p : LpPool) (k : ℕ), k = 0 ∨ p.lp_token_amount < k →
      remove_liquidity p k = (.error .InsufficientLiquidity, p)) ∧
    (∀ (p : LpPool) (k : ℕ) (e : Error) (p' : LpPool),
      remove_liquidity p k = (.error e, p') →
        p' = p ∧ e = .InsufficientLiquidity ∧ (k = 0 ∨ p.lp_token_amount < k)) ∧
    (∀ (p : LpPool) (s : ℕ) (fee : ℚ), s = 0 → swap p s fee = (.error .InvalidInput, p)) ∧
    (∀ (p : LpPool) (s : ℕ) (fee : ℚ), 0 < s →
      p.token_amount < tokensToReceiveScaled p s fee →
      swap p s fee = (.error .InsufficientLiquidity, p)) ∧
    (∀ (p : LpPool) (s : ℕ) (fee : ℚ) (e : Error) (p' : LpPool),
      swap p s fee = (.error e, p') → p' = p) := by
  refine ⟨?_, ?_, ?_, ?_, ?_, ?_, ?_⟩
  · intro p a h; subst h; rfl
  · intro p a e p' h
    unfold add_liquidity at h
    rcases Nat.eq_zero_or_pos a with ha | ha
    · subst ha; simp only [if_pos (Nat.le_refl 0), Prod.mk.injEq] at h
      exact ⟨h.2.symm, (Except.error.injEq _ _).mp h.1.symm, rfl⟩
    · rw [if_neg (by omega)] at h
      cases (Prod.mk.injEq _ _ _ _).mp h |>.1
  · intro p k h
    unfold remove_liquidity
    rw [if_pos (by omega)]
  · intro p k e p' h
    unfold remove_liquidity at h
    by_cases hk : k ≤ 0 ∨ k > p.lp_token_amount
    · rw [if_pos hk] at h
      obtain ⟨h1, h2⟩ := (Prod.mk.injEq _ _ _ _).mp h
      exact ⟨h2.symm, (Except.error.injEq _ _).mp h1.symm, by omega⟩
    · rw [if_neg hk] at h
      cases (Prod.mk.injEq _ _ _ _).mp h |>.1
  · intro p s fee h; subst h; rfl
  · intro p s fee hs hliq
    unfold swap
    rw [if_neg (by omega), if_pos (by omega)]
  · intro p s fee e p' h
    unfold swap at h
    rcases Nat.eq_zero_or_pos s with hs | hs
    · subst hs; simp only [if_pos (Nat.le_refl 0), Prod.mk.injEq] at h
      exact h.2.symm
    · rw [if_neg (by omega)] at h
      by_cases hliq : tokensToReceiveScaled p s fee > p.token_amount
      · rw [if_pos hliq] at h
        exact ((Prod.mk.injEq _ _ _ _).mp h).2.symm
      · rw [if_neg hliq] at h
        cases (Prod.mk.injEq _ _ _ _).mp h |>.1

/-- Witness for C5: the error conditions and unchanged state, evaluated on the
pool of `main` (zero-amount deposit, over-supply withdrawal, zero-amount swap,
and an over-reserve swap on the freshly initialized empty pool). -/
theorem operations_atomic_on_error_witness :
    add_liquidity mainPool0 0 = (.error .InvalidInput, mainPool0) ∧
    remove_liquidity mainPool0 5 = (.error .InsufficientLiquidity, mainPool0) ∧
    swap mainPool1 0 (9/10) = (.error .InvalidInput, mainPool1) ∧
    swap mainPool0 6000000 (9/10) = (.error .InsufficientLiquidity, mainPool0) := by
  obtain ⟨h1, -, h3, -, h5, h6, -⟩ := operations_atomic_on_error
  refine ⟨h1 mainPool0 0 rfl, h3 mainPool0 5 (Or.inr (by norm_num [mainPool0])),
    h5 mainPool1 0 (9/10) rfl, h6 mainPool0 6000000 (9/10) (by norm_num) ?_⟩
  show mainPool0.token_amount < (rustRound (tokensToReceive mainPool0 6000000 (9/10) * (SCALE : ℚ))).toNat
  norm_num [mainPool0, tokensToReceive, rustRound, SCALE]

lemma scale_q_ne_zero : (SCALE : ℚ) ≠ 0 := by norm_num [SCALE]

lemma nat_div_scale_mul_scale (a : ℕ) : ((a : ℚ) / (SCALE : ℚ)) * (SCALE : ℚ) = (a : ℚ) :=
  div_mul_cancel₀ _ scale_q_ne_zero

/-- C4: for every pool state and strictly positive deposit, `add_liquidity`
succeeds, increases the base reserve by exactly the deposit, increases the LP
supply by the fixed-point representation of the minted value, leaves all other
fields unchanged, and mints 1:1 (exactly the deposited amount) when the LP
supply was zero, proportionally (`amount * LpSupply / BaseReserve`, at natural
scale) when it was positive. -/
theorem add_liquidity_mint_spec (p : LpPool) (a : ℕ) (h : 0 < a) :
    ∃ (m : ℚ) (p' : LpPool), add_liquidity p a = (.ok m, p') ∧
      p'.token_amount = p.token_amount + a ∧
      p'.lp_token_amount = p.lp_token_amount + ⌊m * (SCALE : ℚ)⌋.toNat ∧
      p'.st_token_amount = p.st_token_amount ∧
      p'.price = p.price ∧ p'.min_fee = p.min_fee ∧ p'.max_fee = p.max_fee ∧
      p'.liquidity_target = p.liquidity_target ∧
      (p.lp_token_amount = 0 → m * (SCALE : ℚ) = (a : ℚ) ∧
        p'.lp_token_amount = p.lp_token_amount + a) ∧
      (0 < p.lp_token_amount →
        m = (a : ℚ) * (p.lp_token_amount : ℚ) / ((p.token_amount : ℚ) * (SCALE : ℚ))) := by
  refine ⟨mintAmount p a, _, (add_ok_iff p a _ _).mpr ⟨h, rfl, rfl⟩, rfl, rfl, rfl, rfl, rfl, rfl,
    rfl, ?_, ?_⟩
  · intro hlp
    have hm : mintAmount p a * (SCALE : ℚ) = (a : ℚ) := by
      unfold mintAmount
      rw [if_neg (by omega)]
      exact nat_div_scale_mul_scale a
    refine ⟨hm, ?_⟩
    show p.lp_token_amount + ⌊mintAmount p a * (SCALE : ℚ)⌋.toNat = p.lp_token_amount + a
    rw [hm, Int.floor_natCast, Int.toNat_natCast]
  · intro hlp
    unfold mintAmount
    rw [if_pos (by omega), div_div]

/-- Witness for C4: `main`'s first deposit of `100.0` into the freshly
initialized pool. -/
theorem add_liquidity_mint_spec_witness :
    0 < 100000000 ∧
    ∃ (m : ℚ) (p' : LpPool), add_liquidity mainPool0 100000000 = (.ok m, p') ∧
      p'.token_amount = mainPool0.token_amount + 100000000 ∧
      p'.lp_token_amount = mainPool0.lp_token_amount + ⌊m * (SCALE : ℚ)⌋.toNat ∧
      p'.st_token_amount = mainPool0.st_token_amount ∧
      p'.price = mainPool0.price ∧ p'.min_fee = mainPool0.min_fee ∧
      p'.max_fee = mainPool0.max_fee ∧
      p'.liquidity_target = mainPool0.liquidity_target ∧
      (mainPool0.lp_token_amount = 0 → m * (SCALE : ℚ) = (100000000 : ℚ) ∧
        p'.lp_token_amount = mainPool0.lp_token_amount + 100000000) ∧
      (0 < mainPool0.lp_token_amount →
        m = (100000000 : ℚ) * (mainPool0.lp_token_amount : ℚ) /
          ((mainPool0.token_amount : ℚ) * (SCALE : ℚ))) :=
  ⟨by norm_num, by
    have h := add_liquidity_mint_spec mainPool0 100000000 (by norm_num)
    simpa using h⟩

lemma baseReturn_mul_scale (p : LpPool) (k : ℕ) :
    baseReturn p k * (SCALE : ℚ) = (p.token_amount : ℚ) * k / (p.lp_token_amount : ℚ) := by
  unfold baseReturn lpShare
  rw [div_mul_cancel₀ _ scale_q_ne_zero, mul_div_assoc]

lemma stakedReturn_mul_scale (p : LpPool) (k : ℕ) :
    stakedReturn p k * (SCALE : ℚ) = (p.st_token_amount : ℚ) * k / (p.lp_token_amount : ℚ) := by
  unfold stakedReturn lpShare
  rw [div_mul_cancel₀ _ scale_q_ne_zero, mul_div_assoc]

lemma toNat_floor_cast_q (x : ℚ) (hx : 0 ≤ x) : ((⌊x⌋.toNat : ℕ) : ℚ) = ((⌊x⌋ : ℤ) : ℚ) := by
  rw [← Int.cast_natCast, Int.toNat_of_nonneg (Int.floor_nonneg.mpr hx)]

lemma floor_frac_le (b k l : ℕ) (hkl : k ≤ l) : ⌊(b : ℚ) * k / l⌋.toNat ≤ b := by
  rcases Nat.eq_zero_or_pos l with hl | hl
  · subst hl; simp
  · have hx : (b : ℚ) * k / l ≤ (b : ℚ) := by
      rw [div_le_iff₀ (by exact_mod_cast hl)]
      have : (b : ℚ) * k ≤ (b : ℚ) * l := by
        apply mul_le_mul_of_nonneg_left (by exact_mod_cast hkl) (by positivity)
      linarith
    have hfl : ⌊(b : ℚ) * k / l⌋ ≤ (b : ℤ) := by
      have := Int.floor_le_floor hx
      simpa using this
    omega

lemma floor_frac_lt (b k l : ℕ) (hb : 0 < b) (hkl : k < l) : ⌊(b : ℚ) * k / l⌋.toNat < b := by
  have hl : (0 : ℚ) < l := by exact_mod_cast Nat.lt_of_le_of_lt (Nat.zero_le k) hkl
  have hx : (b : ℚ) * k / l < (b : ℚ) := by
    rw [div_lt_iff₀ hl]
    have : (b : ℚ) * k < (b : ℚ) * l := by
      apply mul_lt_mul_of_pos_left (by exact_mod_cast hkl) (by exact_mod_cast hb)
    linarith
  have hfl : ⌊(b : ℚ) * k / l⌋ < (b : ℤ) := Int.floor_lt.mpr (by exact_mod_cast hx)
  omega

/-- C3: for every pool state and every `lpAmount` with
`0 < lpAmount ≤ LpSupply`, `remove_liquidity` succeeds, returns exactly the
proportional fractions `BaseReserve * lpAmount / LpSupply` and
`StakedReserve * lpAmount / LpSupply` (stated at fixed-point scale), deducts
from each reserve the fixed-point truncation of the returned amount (within
one scale unit of the exact fraction), and decreases the LP supply by exactly
`lpAmount`, leaving the configuration fields unchanged. -/
theorem remove_liquidity_proportional (p : LpPool) (k : ℕ) (h1 : 0 < k)
    (h2 : k ≤ p.lp_token_amount) :
    ∃ (rB rS : ℚ) (p' : LpPool), remove_liquidity p k = (.ok (rB, rS), p') ∧
      rB * (SCALE : ℚ) = (p.token_amount : ℚ) * k / (p.lp_token_amount : ℚ) ∧
      rS * (SCALE : ℚ) = (p.st_token_amount : ℚ) * k / (p.lp_token_amount : ℚ) ∧
      p'.lp_token_amount + k = p.lp_token_amount ∧
      p'.token_amount + ⌊rB * (SCALE : ℚ)⌋.toNat = p.token_amount ∧
      p'.st_token_amount + ⌊rS * (SCALE : ℚ)⌋.toNat = p.st_token_amount ∧
      rB * (SCALE : ℚ) - 1 < (⌊rB * (SCALE : ℚ)⌋.toNat : ℚ) ∧
      (⌊rB * (SCALE : ℚ)⌋.toNat : ℚ) ≤ rB * (SCALE : ℚ) ∧
      rS * (SCALE : ℚ) - 1 < (⌊rS * (SCALE : ℚ)⌋.toNat : ℚ) ∧
      (⌊rS * (SCALE : ℚ)⌋.toNat : ℚ) ≤ rS * (SCALE : ℚ) ∧
      p'.price = p.price ∧ p'.liquidity_target = p.liquidity_target ∧
      p'.min_fee = p.min_fee ∧ p'.max_fee = p.max_fee := by
  have hB := baseReturn_mul_scale p k
  have hS := stakedReturn_mul_scale p k
  have hBle : ⌊baseReturn p k * (SCALE : ℚ)⌋.toNat ≤ p.token_amount := by
    rw [hB]; exact floor_frac_le _ _ _ h2
  have hSle : ⌊stakedReturn p k * (SCALE : ℚ)⌋.toNat ≤ p.st_token_amount := by
    rw [hS]; exact floor_frac_le _ _ _ h2
  have hBnn : (0 : ℚ) ≤ baseReturn p k * (SCALE : ℚ) := by rw [hB]; positivity
  have hSnn : (0 : ℚ) ≤ stakedReturn p k * (SCALE : ℚ) := by rw [hS]; positivity
  have hBfloor : (0 : ℤ) ≤ ⌊baseReturn p k * (SCALE : ℚ)⌋ := Int.floor_nonneg.mpr hBnn
  have hSfloor : (0 : ℤ) ≤ ⌊stakedReturn p k * (SCALE : ℚ)⌋ := Int.floor_nonneg.mpr hSnn
  refine ⟨baseReturn p k, stakedReturn p k, _,
    (remove_ok_iff p k _ _).mpr ⟨h1, h2, rfl, rfl⟩, hB, hS, by simp; omega, ?_, ?_,
    ?_, ?_, ?_, ?_, rfl, rfl, rfl, rfl⟩
  · show p.token_amount - ⌊baseReturn p k * (SCALE : ℚ)⌋.toNat +
      ⌊baseReturn p k * (SCALE : ℚ)⌋.toNat = p.token_amount
    omega
  · show p.st_token_amount - ⌊stakedReturn p k * (SCALE : ℚ)⌋.toNat +
      ⌊stakedReturn p k * (SCALE : ℚ)⌋.toNat = p.st_token_amount
    omega
  · rw [toNat_floor_cast_q _ hBnn]
    exact Int.sub_one_lt_floor (baseReturn p k * (SCALE : ℚ))
  · rw [toNat_floor_cast_q _ hBnn]
    exact Int.floor_le _
  · rw [toNat_floor_cast_q _ hSnn]
    exact Int.sub_one_lt_floor (stakedReturn p k * (SCALE : ℚ))
  · rw [toNat_floor_cast_q _ hSnn]
    exact Int.floor_le _

/-- Witness for C3: removing half the LP supply of `main`'s pool after its
first deposit. -/
theorem remove_liquidity_proportional_witness :
    0 < 50000000 ∧ 50000000 ≤ mainPool1.lp_token_amount ∧
    ∃ (rB rS : ℚ) (p' : LpPool), remove_liquidity mainPool1 50000000 = (.ok (rB, rS), p') ∧
      rB * (SCALE : ℚ) = (mainPool1.token_amount : ℚ) * 50000000 /
        (mainPool1.lp_token_amount : ℚ) ∧
      rS * (SCALE : ℚ) = (mainPool1.st_token_amount : ℚ) * 50000000 /
        (mainPool1.lp_token_amount : ℚ) ∧
      p'.lp_token_amount + 50000000 = mainPool1.lp_token_amount := by
  have h := remove_liquidity_proportional mainPool1 50000000 (by norm_num)
    (by norm_num [mainPool1])
  obtain ⟨rB, rS, p', heq, hB, hS, hlp, -⟩ := h
  exact ⟨by norm_num, by norm_num [mainPool1], rB, rS, p', by exact_mod_cast heq,
    by exact_mod_cast hB, by exact_mod_cast hS, hlp⟩

/-- C8: under the precondition `0 < lpAmount ≤ LpSupply`, the scaled base
return never exceeds the base reserve and the scaled staked return never
exceeds the staked reserve, so the two reserve subtractions performed by
`remove_liquidity` never underflow: the updated reserve plus the deduction
reconstructs the original reserve exactly. -/
theorem remove_liquidity_no_underflow (p : LpPool) (k : ℕ) (h1 : 0 < k)
    (h2 : k ≤ p.lp_token_amount) :
    ⌊baseReturn p k * (SCALE : ℚ)⌋.toNat ≤ p.token_amount ∧
    ⌊stakedReturn p k * (SCALE : ℚ)⌋.toNat ≤ p.st_token_amount ∧
    (remove_liquidity p k).2.token_amount + ⌊baseReturn p k * (SCALE : ℚ)⌋.toNat
      = p.token_amount ∧
    (remove_liquidity p k).2.st_token_amount + ⌊stakedReturn p k * (SCALE : ℚ)⌋.toNat
      = p.st_token_amount := by
  have hBle : ⌊baseReturn p k * (SCALE : ℚ)⌋.toNat ≤ p.token_amount := by
    rw [baseReturn_mul_scale]; exact floor_frac_le _ _ _ h2
  have hSle : ⌊stakedReturn p k * (SCALE : ℚ)⌋.toNat ≤ p.st_token_amount := by
    rw [stakedReturn_mul_scale]; exact floor_frac_le _ _ _ h2
  refine ⟨hBle, hSle, ?_, ?_⟩ <;>
  · unfold remove_liquidity
    rw [if_neg (by omega)]
    simp only
    omega

/-- Witness for C8: the reserve deductions on `main`'s pool after its first
deposit, for a withdrawal of half the LP supply. -/
theorem remove_liquidity_no_underflow_witness :
    0 < 50000000 ∧ 50000000 ≤ mainPool1.lp_token_amount ∧
    ⌊baseReturn mainPool1 50000000 * (SCALE : ℚ)⌋.toNat ≤ mainPool1.token_amount ∧
    (remove_liquidity mainPool1 50000000).2.token_amount +
      ⌊baseReturn mainPool1 50000000 * (SCALE : ℚ)⌋.toNat = mainPool1.token_amount := by
  have h := remove_liquidity_no_underflow mainPool1 50000000 (by norm_num)
    (by norm_num [mainPool1])
  exact ⟨by norm_num, by norm_num [mainPool1], h.1, h.2.2.1⟩

/-- C10: when `minFee ≤ maxFee` the fee-sampling interval is non-empty, and
`swap` is total: for every staked amount and every sampled fee rate it returns
either the payout (with the reserve subtraction guarded by the preceding
liquidity check) or one of the two errors, never anything else. -/
theorem swap_total_when_fees_ordered (p : LpPool) (h : p.min_fee ≤ p.max_fee) :
    toF64 p.min_fee ≤ toF64 p.max_fee ∧
    ∀ (s : ℕ) (fee : ℚ),
      (s = 0 ∧ swap p s fee = (.error .InvalidInput, p)) ∨
      (p.token_amount < tokensToReceiveScaled p s fee ∧
        swap p s fee = (.error .InsufficientLiquidity, p)) ∨
      (tokensToReceiveScaled p s fee ≤ p.token_amount ∧
        swap p s fee = (.ok (tokensToReceive p s fee),
          { p with
            token_amount := p.token_amount - tokensToReceiveScaled p s fee
            st_token_amount := p.st_token_amount + s })) := by
  constructor
  · exact div_le_div_of_nonneg_right (by exact_mod_cast h) (by norm_num [SCALE])
  · intro s fee
    rcases Nat.eq_zero_or_pos s with hs | hs
    · subst hs
      exact Or.inl ⟨rfl, rfl⟩
    · by_cases hliq : tokensToReceiveScaled p s fee > p.token_amount
      · refine Or.inr (Or.inl ⟨hliq, ?_⟩)
        unfold swap
        rw [if_neg (by omega), if_pos hliq]
      · refine Or.inr (Or.inr ⟨by omega, ?_⟩)
        unfold swap
        rw [if_neg (by omega), if_neg hliq]

/-- Witness for C10: `main`'s pool after the first deposit has ordered fee
bounds, and the swap of `6.0` there at the minimal sampled fee rate lands in
the success branch of the case split. -/
theorem swap_total_when_fees_ordered_witness :
    mainPool1.min_fee ≤ mainPool1.max_fee ∧
    toF64 mainPool1.min_fee ≤ toF64 mainPool1.max_fee ∧
    ((6000000 = 0 ∧ swap mainPool1 6000000 (9/10) = (.error .InvalidInput, mainPool1)) ∨
     (mainPool1.token_amount < tokensToReceiveScaled mainPool1 6000000 (9/10) ∧
       swap mainPool1 6000000 (9/10) = (.error .InsufficientLiquidity, mainPool1)) ∨
     (tokensToReceiveScaled mainPool1 6000000 (9/10) ≤ mainPool1.token_amount ∧
       swap mainPool1 6000000 (9/10) = (.ok (tokensToReceive mainPool1 6000000 (9/10)),
         { mainPool1 with
           token_amount := mainPool1.token_amount - tokensToReceiveScaled mainPool1 6000000 (9/10)
           st_token_amount := mainPool1.st_token_amount + 6000000 }))) := by
  have hord : mainPool1.min_fee ≤ mainPool1.max_fee := by norm_num [mainPool1]
  have h := swap_total_when_fees_ordered mainPool1 hord
  exact ⟨hord, h.1, h.2 6000000 (9/10)⟩

/-- The pool of `main` after `swap(StakedTokenAmount::from(6.0))` when the
sampler returns the minimal fee rate `0.9`. -/
def mainPoolSwapped : LpPool :=
  { price := 1500000, token_amount := 91000008, st_token_amount := 6000000,
    lp_token_amount := 100000000,
    liquidity_target := 90000000, min_fee := 900000, max_fee := 9000000 }

/-- Counterexample to C1: in the concrete scenario of `main`
(price 1.5, fee bounds 0.9 and 9.0 at `to_f64` scale, first deposit 100.0),
the sampler may return the fee rate `0.9`, and `swap(6.0)` then returns
`8.9999919`, which lies outside the claimed interval `[8.181, 8.9406]` —
because the source divides the sampled fee rate by `SCALE` a second time, the
effective fee fraction is about `9e-7`, not `0.9`. -/
theorem swap_main_scenario_outside_spec_interval :
    feeInRange mainPool1 (9/10) ∧
    swap mainPool1 6000000 (9/10) = (.ok (89999919/10000000), mainPoolSwapped) ∧
    ¬((8181/1000 : ℚ) ≤ 89999919/10000000 ∧ (89999919/10000000 : ℚ) ≤ 89406/10000) := by
  refine ⟨⟨?_, ?_⟩, ?_, by norm_num⟩
  · norm_num [toF64, mainPool1, SCALE]
  · norm_num [toF64, mainPool1, SCALE]
  · norm_num [swap, tokensToReceive, tokensToReceiveScaled, rustRound, mainPool1,
      mainPoolSwapped, SCALE]
    omega

/-- C1 as amended: a successful `swap` returns
`stakedAmount * price * (SCALE - feeRate) / SCALE³` — i.e. the sampled fee
rate is divided by `SCALE` a second time, so the effective fee fraction is
`feeRate / SCALE`, not `feeRate`; consequently in `main`'s concrete scenario
`swap(6.0)` succeeds for every sampled fee rate in `[0.9, 9.0]` and returns
`9 * (1 - fee/10⁶)`, a value in `[9*(1 - 9*10⁻⁶), 9*(1 - 9*10⁻⁷)]`, not in
`[8.181, 8.9406]`. -/
theorem swap_payout_formula_and_main_bounds :
    (∀ (p : LpPool) (s : ℕ) (fee v : ℚ) (p' : LpPool),
      swap p s fee = (.ok v, p') →
      v = (s : ℚ) * (p.price : ℚ) * ((SCALE : ℚ) - fee) /
        ((SCALE : ℚ) * (SCALE : ℚ) * (SCALE : ℚ))) ∧
    (∀ fee : ℚ, feeInRange mainPool1 fee →
      swap mainPool1 6000000 fee = (.ok (9 * (1 - fee / 1000000)),
        { mainPool1 with
          token_amount := 100000000 - tokensToReceiveScaled mainPool1 6000000 fee
          st_token_amount := 6000000 }) ∧
      9 * (1 - (9 : ℚ) / 1000000) ≤ 9 * (1 - fee / 1000000) ∧
      9 * (1 - fee / 1000000) ≤ 9 * (1 - (9 : ℚ) / 10000000)) := by
  constructor
  · intro p s fee v p' h
    obtain ⟨-, -, hv, -⟩ := (swap_ok_iff p s fee v p').mp h
    subst hv
    unfold tokensToReceive
    have hS := scale_q_ne_zero
    field_simp
  · intro fee hfee
    obtain ⟨hmin, hmax⟩ := hfee
    have hfee1 : (9 : ℚ)/10 ≤ fee := by
      have := hmin; norm_num [toF64, mainPool1, SCALE] at this; linarith
    have hfee2 : fee ≤ 9 := by
      have := hmax; norm_num [toF64, mainPool1, SCALE] at this; linarith
    have hv : tokensToReceive mainPool1 6000000 fee = 9 * (1 - fee / 1000000) := by
      unfold tokensToReceive
      norm_num [mainPool1, SCALE]
    have hq : tokensToReceive mainPool1 6000000 fee * (SCALE : ℚ)
        = 9000000 - 9 * fee := by
      rw [hv]; norm_num [SCALE]; ring
    have hqpos : (0 : ℚ) ≤ tokensToReceive mainPool1 6000000 fee * (SCALE : ℚ) := by
      rw [hq]; linarith
    have hscaled : tokensToReceiveScaled mainPool1 6000000 fee ≤ 100000000 := by
      unfold tokensToReceiveScaled rustRound
      rw [if_pos hqpos, hq]
      have hlt : ⌊(9000000 : ℚ) - 9 * fee + 1/2⌋ < (100000001 : ℤ) := by
        rw [Int.floor_lt]
        push_cast
        linarith
      omega
    refine ⟨?_, by linarith, by linarith⟩
    unfold swap
    rw [if_neg (by norm_num)]
    have hcond : ¬ (tokensToReceiveScaled mainPool1 6000000 fee > mainPool1.token_amount) := by
      show ¬ (tokensToReceiveScaled mainPool1 6000000 fee > 100000000)
      omega
    rw [if_neg hcond]
    rw [hv]
    rfl

/-- Witness for C1's amended statement: the general payout formula applied to
the successful swap at fee rate `0.9`, and the concrete bounds at that fee. -/
theorem swap_payout_formula_and_main_bounds_witness :
    feeInRange mainPool1 (9/10) ∧
    swap mainPool1 6000000 (9/10) = (.ok (9 * (1 - (9/10) / 1000000)),
      { mainPool1 with
        token_amount := 100000000 - tokensToReceiveScaled mainPool1 6000000 (9/10)
        st_token_amount := 6000000 }) ∧
    9 * (1 - (9 : ℚ) / 1000000) ≤ 9 * (1 - (9/10) / 1000000) ∧
    9 * (1 - (9/10 : ℚ) / 1000000) ≤ 9 * (1 - (9 : ℚ) / 10000000) := by
  have hfee : feeInRange mainPool1 (9/10) := by
    constructor <;> norm_num [toF64, mainPool1, SCALE]
  have h := swap_payout_formula_and_main_bounds.2 (9/10) hfee
  exact ⟨hfee, h.1, h.2.1, h.2.2⟩

/-- A pool with a tiny LP supply relative to its base reserve (1 scaled LP
unit against 2.0 base tokens). -/
def pShort : LpPool :=
  { price := 1500000, token_amount := 2000000, st_token_amount := 0, lp_token_amount := 1,
    liquidity_target := 90000000, min_fee := 900000, max_fee := 9000000 }

/-- `pShort` after `add_liquidity(3.0)`: the proportional mint `1.5` truncates
to `1` scaled LP unit. -/
def pShort1 : LpPool :=
  { price := 1500000, token_amount := 5000000, st_token_amount := 0, lp_token_amount := 2,
    liquidity_target := 90000000, min_fee := 900000, max_fee := 9000000 }

/-- `pShort1` after withdrawing the 1 newly minted scaled LP unit. -/
def pShort2 : LpPool :=
  { price := 1500000, token_amount := 2500000, st_token_amount := 0, lp_token_amount := 1,
    liquidity_target := 90000000, min_fee := 900000, max_fee := 9000000 }

/-- Counterexample to C6: on `pShort`, depositing `A = 3.0` mints `1.5e-6`
LP tokens (1 scaled unit after truncation), and immediately withdrawing that
newly minted LP amount returns only `2.5` base tokens — short of `A` by `0.5`,
which is 500000 times the one-scale-unit rounding tolerance. -/
theorem roundtrip_shortfall_counterexample :
    add_liquidity pShort 3000000 = (.ok (3/2000000), pShort1) ∧
    ⌊(3/2000000 : ℚ) * (SCALE : ℚ)⌋.toNat = 1 ∧
    remove_liquidity pShort1 1 = (.ok (5/2, 0), pShort2) ∧
    (3000000 : ℚ) / (SCALE : ℚ) - 5/2 = 1/2 ∧
    1 / (SCALE : ℚ) < 1/2 := by
  refine ⟨?_, ?_, ?_, by norm_num [SCALE], by norm_num [SCALE]⟩
  · norm_num [add_liquidity, mintAmount, pShort, pShort1, SCALE]
  · norm_num [SCALE]
  · norm_num [remove_liquidity, baseReturn, stakedReturn, lpShare, pShort1, pShort2, SCALE]
    omega

lemma add_ok_exists (p : LpPool) (a : ℕ) (h : 0 < a) :
    ∃ p1, add_liquidity p a = (.ok (mintAmount p a), p1) ∧
      p1.token_amount = p.token_amount + a ∧
      p1.st_token_amount = p.st_token_amount ∧
      p1.lp_token_amount = p.lp_token_amount + ⌊mintAmount p a * (SCALE : ℚ)⌋.toNat :=
  ⟨_, (add_ok_iff p a _ _).mpr ⟨h, rfl, rfl⟩, rfl, rfl, rfl⟩

/-- C6 as amended: the deposit-then-withdraw round trip returns exactly the
deposited base amount `A` (and zero staked tokens when the staked reserve was
zero) whenever the mint does not truncate: either the pool is empty
(bootstrap 1:1 mint) or the proportional mint `amount * LpSupply / BaseReserve`
is an exact integer in scaled units. In general the truncation loss is not
bounded by one scale unit (see the counterexample). -/
theorem roundtrip_exact_when_mint_exact (p : LpPool) (a : ℕ) (h : 0 < a)
    (hcase : (p.lp_token_amount = 0 ∧ p.token_amount = 0) ∨
      (0 < p.lp_token_amount ∧ 0 < p.token_amount ∧
        p.token_amount ∣ a * p.lp_token_amount)) :
    ∃ (m : ℚ) (p1 : LpPool) (rB rS : ℚ) (p2 : LpPool),
      add_liquidity p a = (.ok m, p1) ∧
      remove_liquidity p1 ⌊m * (SCALE : ℚ)⌋.toNat = (.ok (rB, rS), p2) ∧
      rB * (SCALE : ℚ) = (a : ℚ) ∧
      (p.st_token_amount = 0 → rS = 0) := by
  have haq : ((a : ℚ)) ≠ 0 := by
    have : (0 : ℚ) < (a : ℚ) := by exact_mod_cast h
    linarith
  obtain ⟨p1, hadd, hb1, hst1, hlp1⟩ := add_ok_exists p a h
  rcases hcase with ⟨hlp0, hb0⟩ | ⟨hlp, hb, hdvd⟩
  · -- bootstrap case: empty pool
    have hmS : mintAmount p a * (SCALE : ℚ) = (a : ℚ) := by
      unfold mintAmount
      rw [if_neg (by omega)]
      exact nat_div_scale_mul_scale a
    have hfloor : ⌊mintAmount p a * (SCALE : ℚ)⌋.toNat = a := by
      rw [hmS, Int.floor_natCast, Int.toNat_natCast]
    have hle : ⌊mintAmount p a * (SCALE : ℚ)⌋.toNat ≤ p1.lp_token_amount := by
      rw [hlp1]; omega
    have hpos : 0 < ⌊mintAmount p a * (SCALE : ℚ)⌋.toNat := by omega
    refine ⟨mintAmount p a, p1, baseReturn p1 _, stakedReturn p1 _, _, hadd,
      (remove_ok_iff p1 ⌊mintAmount p a * (SCALE : ℚ)⌋.toNat _ _).mpr
        ⟨hpos, hle, rfl, rfl⟩, ?_, ?_⟩
    · rw [baseReturn_mul_scale, hb1, hlp1, hfloor, hb0, hlp0]
      push_cast
      field_simp
    · intro hst
      unfold stakedReturn
      rw [hst1, hst]
      push_cast
      ring
  · -- proportional case with exact division
    have hbq : ((p.token_amount : ℚ)) ≠ 0 := by
      have : (0 : ℚ) < (p.token_amount : ℚ) := by exact_mod_cast hb
      linarith
    have hmS : mintAmount p a * (SCALE : ℚ)
        = (a : ℚ) * (p.lp_token_amount : ℚ) / (p.token_amount : ℚ) := by
      unfold mintAmount
      rw [if_pos (by omega)]
      exact div_mul_cancel₀ _ scale_q_ne_zero
    have hdq : ((a * p.lp_token_amount / p.token_amount : ℕ) : ℚ)
        = (a : ℚ) * (p.lp_token_amount : ℚ) / (p.token_amount : ℚ) := by
      rw [Nat.cast_div hdvd hbq]
      push_cast
      ring
    have hfloor : ⌊mintAmount p a * (SCALE : ℚ)⌋.toNat
        = a * p.lp_token_amount / p.token_amount := by
      rw [hmS, ← hdq, Int.floor_natCast, Int.toNat_natCast]
    have hdpos : 0 < a * p.lp_token_amount / p.token_amount :=
      Nat.div_pos (Nat.le_of_dvd (by positivity) hdvd) hb
    have hmul : p.token_amount * (a * p.lp_token_amount / p.token_amount)
        = a * p.lp_token_amount := Nat.mul_div_cancel' hdvd
    have hle : ⌊mintAmount p a * (SCALE : ℚ)⌋.toNat ≤ p1.lp_token_amount := by
      rw [hlp1]; omega
    have hpos : 0 < ⌊mintAmount p a * (SCALE : ℚ)⌋.toNat := by omega
    refine ⟨mintAmount p a, p1, baseReturn p1 _, stakedReturn p1 _, _, hadd,
      (remove_ok_iff p1 ⌊mintAmount p a * (SCALE : ℚ)⌋.toNat _ _).mpr
        ⟨hpos, hle, rfl, rfl⟩, ?_, ?_⟩
    · rw [baseReturn_mul_scale, hb1, hlp1, hfloor]
      have hlpd : ((p.lp_token_amount + a * p.lp_token_amount / p.token_amount : ℕ) : ℚ)
          ≠ 0 := by
        have : (0 : ℕ) < p.lp_token_amount + a * p.lp_token_amount / p.token_amount := by
          omega
        exact_mod_cast this.ne'
      rw [div_eq_iff hlpd]
      have hmulq : ((p.token_amount : ℚ))
            * ((a * p.lp_token_amount / p.token_amount : ℕ) : ℚ)
          = (a : ℚ) * (p.lp_token_amount : ℚ) := by
        exact_mod_cast congrArg (Nat.cast : ℕ → ℚ) hmul
      push_cast at hmulq ⊢
      nlinarith [hmulq]
    · intro hst
      unfold stakedReturn
      rw [hst1, hst]
      push_cast
      ring

/-- Witness for C6's amended statement: `main`'s bootstrap deposit of `100.0`
into the freshly initialized empty pool, immediately withdrawn. -/
theorem roundtrip_exact_when_mint_exact_witness :
    0 < 100000000 ∧ (mainPool0.lp_token_amount = 0 ∧ mainPool0.token_amount = 0) ∧
    ∃ (m : ℚ) (p1 : LpPool) (rB rS : ℚ) (p2 : LpPool),
      add_liquidity mainPool0 100000000 = (.ok m, p1) ∧
      remove_liquidity p1 ⌊m * (SCALE : ℚ)⌋.toNat = (.ok (rB, rS), p2) ∧
      rB * (SCALE : ℚ) = (100000000 : ℚ) ∧
      (mainPool0.st_token_amount = 0 → rS = 0) := by
  have h := roundtrip_exact_when_mint_exact mainPool0 100000000 (by norm_num)
    (Or.inl ⟨rfl, rfl⟩)
  exact ⟨by norm_num, ⟨rfl, rfl⟩, by exact_mod_cast h⟩

/-- The reachable-state invariant that actually holds: an empty LP supply
forces an empty base reserve, and fully empty reserves force an empty LP
supply. (The stronger biconditional of the spec fails: `LpSupply = 0` does not
force `StakedReserve = 0`.) -/
def PoolInv (p : LpPool) : Prop :=
  (p.lp_token_amount = 0 → p.token_amount = 0) ∧
  ((p.token_amount = 0 ∧ p.st_token_amount = 0) → p.lp_token_amount = 0)

lemma mint_floor_of_lp_zero (p : LpPool) (a : ℕ) (h : p.lp_token_amount = 0) :
    ⌊mintAmount p a * (SCALE : ℚ)⌋.toNat = a := by
  unfold mintAmount
  rw [if_neg (by omega), nat_div_scale_mul_scale, Int.floor_natCast, Int.toNat_natCast]

lemma add_preserves_inv (p : LpPool) (a : ℕ) (m : ℚ) (p' : LpPool)
    (h : add_liquidity p a = (.ok m, p')) : PoolInv p' := by
  obtain ⟨ha, -, hp⟩ := (add_ok_iff p a m p').mp h
  subst hp
  constructor
  · intro hlp'
    exfalso
    simp only at hlp'
    rcases Nat.eq_zero_or_pos p.lp_token_amount with h0 | h0
    · rw [mint_floor_of_lp_zero p a h0] at hlp'
      omega
    · omega
  · rintro ⟨hb, -⟩
    exfalso
    simp only at hb
    omega

lemma full_withdraw_floor (p : LpPool) (hlp : 0 < p.lp_token_amount) :
    ⌊baseReturn p p.lp_token_amount * (SCALE : ℚ)⌋.toNat = p.token_amount ∧
    ⌊stakedReturn p p.lp_token_amount * (SCALE : ℚ)⌋.toNat = p.st_token_amount := by
  have hlq : ((p.lp_token_amount : ℚ)) ≠ 0 := by
    have : (0 : ℚ) < (p.lp_token_amount : ℚ) := by exact_mod_cast hlp
    linarith
  constructor
  · rw [baseReturn_mul_scale, mul_div_assoc, div_self hlq, mul_one,
      Int.floor_natCast, Int.toNat_natCast]
  · rw [stakedReturn_mul_scale, mul_div_assoc, div_self hlq, mul_one,
      Int.floor_natCast, Int.toNat_natCast]

lemma remove_preserves_inv (p : LpPool) (k : ℕ) (r : ℚ × ℚ) (p' : LpPool)
    (h : remove_liquidity p k = (.ok r, p')) (hinv : PoolInv p) : PoolInv p' := by
  obtain ⟨hk, hkle, -, hp⟩ := (remove_ok_iff p k r p').mp h
  subst hp
  rcases eq_or_lt_of_le hkle with heq | hlt
  · -- full withdrawal: all three ledgers return to zero
    subst heq
    obtain ⟨hbf, hsf⟩ := full_withdraw_floor p (by omega)
    exact ⟨fun _ => by simp only; omega, fun _ => by simp only; omega⟩
  · -- partial withdrawal: the LP supply stays positive, and whichever reserve
    -- was positive stays positive
    have hlp : 0 < p.lp_token_amount := by omega
    constructor
    · intro hlp'
      exfalso
      simp only at hlp'
      omega
    · rintro ⟨hb', hs'⟩
      exfalso
      simp only at hb' hs'
      have hne : ¬ (p.token_amount = 0 ∧ p.st_token_amount = 0) := by
        intro hz
        have := hinv.2 hz
        omega
      rcases Nat.eq_zero_or_pos p.token_amount with hb0 | hbpos
      · have hspos : 0 < p.st_token_amount := by omega
        have : ⌊stakedReturn p k * (SCALE : ℚ)⌋.toNat < p.st_token_amount := by
          rw [stakedReturn_mul_scale]
          exact floor_frac_lt _ _ _ hspos hlt
        omega
      · have : ⌊baseReturn p k * (SCALE : ℚ)⌋.toNat < p.token_amount := by
          rw [baseReturn_mul_scale]
          exact floor_frac_lt _ _ _ hbpos hlt
        omega

lemma swap_preserves_inv (p : LpPool) (s : ℕ) (fee : ℚ) (v : ℚ) (p' : LpPool)
    (h : swap p s fee = (.ok v, p')) (hinv : PoolInv p) : PoolInv p' := by
  obtain ⟨hs, hle, -, hp⟩ := (swap_ok_iff p s fee v p').mp h
  subst hp
  constructor
  · intro hlp'
    simp only at hlp' ⊢
    have hb0 := hinv.1 hlp'
    omega
  · rintro ⟨-, hs'⟩
    exfalso
    simp only at hs'
    omega

lemma step_preserves_inv (p p' : LpPool) (h : Step p p') (hinv : PoolInv p) : PoolInv p' := by
  cases h with
  | addStep a m q heq => exact add_preserves_inv _ _ _ _ heq
  | removeStep k r q heq => exact remove_preserves_inv _ _ _ _ heq hinv
  | swapStep s fee v q hfee heq => exact swap_preserves_inv _ _ _ _ _ heq hinv

/-- C2 as amended: in every state reachable from `init` by successful
operations, `LpSupply = 0` implies `BaseReserve = 0`, and
`BaseReserve = 0 ∧ StakedReserve = 0` implies `LpSupply = 0`. The full
biconditional claimed by the spec fails, because a swap whose rounded payout
is zero succeeds on an empty pool and leaves `LpSupply = 0` with
`StakedReserve > 0` (see the counterexample). -/
theorem reachable_lp_zero_invariant (p : LpPool) (h : Reachable p) :
    (p.lp_token_amount = 0 → p.token_amount = 0) ∧
    ((p.token_amount = 0 ∧ p.st_token_amount = 0) → p.lp_token_amount = 0) := by
  obtain ⟨pr, mf, xf, tg, p0, hinit, hsteps⟩ := h
  have h0 : PoolInv p0 := by
    unfold init at hinit
    injection hinit with hinit
    subst hinit
    exact ⟨fun _ => rfl, fun _ => rfl⟩
  have : PoolInv p := by
    induction hsteps with
    | refl => exact h0
    | tail hab hstep ih => exact step_preserves_inv _ _ hstep ih
  exact this

/-- Witness for C2's amended statement: `main`'s pool after its first deposit
is reachable, and both implications hold there. -/
theorem reachable_lp_zero_invariant_witness :
    Reachable mainPool1 ∧
    (mainPool1.lp_token_amount = 0 → mainPool1.token_amount = 0) ∧
    ((mainPool1.token_amount = 0 ∧ mainPool1.st_token_amount = 0) →
      mainPool1.lp_token_amount = 0) := by
  have hadd : add_liquidity mainPool0 100000000 = (.ok 100, mainPool1) := by
    norm_num [add_liquidity, mintAmount, mainPool0, mainPool1, SCALE]
    rfl
  have hr : Reachable mainPool1 :=
    ⟨1500000, 900000, 9000000, 90000000, mainPool0, rfl,
      Relation.ReflTransGen.single (Step.addStep mainPool0 100000000 100 mainPool1 hadd)⟩
  exact ⟨hr, reachable_lp_zero_invariant mainPool1 hr⟩

/-- An empty pool whose price is `0.4`: dust swaps against it have a rounded
payout of zero. -/
def pFeeStart : LpPool :=
  { price := 400000, token_amount := 0, st_token_amount := 0, lp_token_amount := 0,
    liquidity_target := 90000000, min_fee := 900000, max_fee := 9000000 }

/-- `pFeeStart` after a successful dust swap of 1 scaled staked unit: the LP
supply is still zero but the staked reserve is not. -/
def pFeeBad : LpPool :=
  { price := 400000, token_amount := 0, st_token_amount := 1, lp_token_amount := 0,
    liquidity_target := 90000000, min_fee := 900000, max_fee := 9000000 }

/-- Counterexample to C2: the state `pFeeBad` is reachable (initialize with
price `0.4` and `main`'s fee bounds, then swap 1 scaled staked unit at the
minimal sampled fee rate `0.9`: the payout `0.39999964` scaled units rounds to
`0`, the liquidity check `0 > 0` fails to trigger, and the swap succeeds),
yet `LpSupply = 0` while `StakedReserve = 1 ≠ 0`, refuting the claimed
biconditional. -/
theorem reachable_state_violates_empty_iff :
    Reachable pFeeBad ∧
    ¬ (pFeeBad.lp_token_amount = 0 ↔
        (pFeeBad.token_amount = 0 ∧ pFeeBad.st_token_amount = 0)) := by
  constructor
  · refine ⟨400000, 900000, 9000000, 90000000, pFeeStart, rfl,
      Relation.ReflTransGen.single
        (Step.swapStep pFeeStart 1 (9/10) (tokensToReceive pFeeStart 1 (9/10)) pFeeBad
          ⟨?_, ?_⟩ ?_)⟩
    · norm_num [toF64, pFeeStart, SCALE]
    · norm_num [toF64, pFeeStart, SCALE]
    · norm_num [swap, tokensToReceive, tokensToReceiveScaled, rustRound, pFeeStart,
        pFeeBad, SCALE]
  · norm_num [pFeeBad]

end LiquidityPool
